import Mathlib

/-!
Shallow embedding of the bulk interview-round scheduler of
`fastapi_app/app/services/user_service.py` (`UserService.bulk_create_rounds`,
lines 389-538), together with proofs of the specification's properties.

Modelling conventions:
* Calendar dates are day indices (`Nat`) with day 0 a Monday, so that
  Python's `date.weekday()` is `d % 7` and Sunday is `d % 7 = 6`;
  `current_date += timedelta(days=1)` is `d + 1`.
* Times of day are minutes (`Nat`): the source parses `"HH:MM"` strings into
  `hour * 60 + minute`; the embedding takes the parsed minute counts directly.
* Absolute `datetime` values are minutes since day 0 midnight
  (`date * 1440 + minuteOfDay`); `strftime "%H:%M"` of such a value is its
  minute of day (`% 1440`), `timedelta(minutes=m)` is `+ m`.
* Python `int` subtraction may go negative, so the day-window arithmetic of
  lines 426-446 is carried out in `Int`, with `//` as `Int.fdiv`
  (Python floor division).
* The external collaborators are injected as functions: the Candidate
  Directory lookup (`UserService.get_user_by_email`), the group counter
  (`UserService.get_last_group_number`, passed as its result), the
  `random.shuffle` permutation, and `engine.save`, whose outcome is a
  function returning `none` on success or `some msg` when the write raises.
  A raised exception is propagated as `Except.error`, as in the source,
  and the list of records actually persisted (the write log) is part of the
  observable outcome.
-/

namespace RecBackend

/-- Remarks on a round record: the source stores a bare string for
`gd`/`screening` and a single-element list for `pi` (lines 497-511). -/
inductive Remarks where
  | text : String → Remarks
  | textList : List String → Remarks
deriving DecidableEq, Repr

/-- One round sub-record (`gd`, `screening`, `pi`): a status, an absolute
datetime in minutes, and remarks. -/
structure RoundInfo where
  status : String
  datetime : Nat
  remarks : Remarks
deriving DecidableEq, Repr

/-- The slice of a Candidate record that `bulk_create_rounds` reads/writes. -/
structure User where
  email : String
  groupNumber : Nat
  gd : Option RoundInfo
  screening : Option RoundInfo
  pi : Option RoundInfo
deriving DecidableEq, Repr

/-- A `{email, reason}` entry of the run's `failed` list. -/
structure Failure where
  email : String
  reason : String
deriving DecidableEq, Repr

/-- One entry of the returned `batches` list (lines 517-525); `gdTime`,
`screeningTime`, `interviewTime` are the `strftime "%H:%M"` values as minutes
of day, `date` the `strftime "%Y-%m-%d"` value as a day index. -/
structure BatchResult where
  batchNumber : Nat
  groupNumber : Nat
  users : List String
  gdTime : Nat
  screeningTime : Nat
  interviewTime : Nat
  date : Nat
deriving DecidableEq, Repr

/-- The dict returned on success (lines 533-538 and the early return 412). -/
structure RunResult where
  totalUsersScheduled : Nat
  totalBatches : Nat
  batches : List BatchResult
  failed : List Failure
deriving DecidableEq, Repr

/-- Observable outcome of one call: the returned dict or the raised
exception's message, plus the write log of records persisted via
`engine.save`, in order. -/
structure RunOutcome where
  result : Except String RunResult
  savedLog : List User
deriving Repr

/-- Mutable state of the scheduling loop of lines 451-531. -/
structure SchedState where
  batches : List BatchResult
  batchNumber : Nat
  currentGroup : Nat
  currentDate : Nat
  batchesToday : Nat
  savedLog : List User
deriving Repr

/-- Lines 404-409: fetch users by email; a missing email becomes a
`{email, reason: "User not found"}` entry of `failed`, in input order. -/
def fetchUsers (lookup : String → Option User) : List String → List User × List Failure
  | [] => ([], [])
  | email :: rest =>
    let acc := fetchUsers lookup rest
    match lookup email with
    | some u => (u :: acc.1, acc.2)
    | none => (acc.1, { email := email, reason := "User not found" } :: acc.2)

/-- Slicing loop of lines 437-439 with explicit fuel (each slice consumes
at least one element, so fuel `l.length` never runs out for a positive
step). -/
def makeBatchesFuel {α : Type} (fuel b : Nat) (l : List α) : List (List α) :=
  match l, b, fuel with
  | [], _, _ => []
  | _ :: _, 0, _ => []
  | _ :: _, _ + 1, 0 => []
  | u :: rest, b + 1, fuel + 1 =>
    ((u :: rest).take (b + 1)) :: makeBatchesFuel fuel (b + 1) ((u :: rest).drop (b + 1))

/-- Lines 437-439: `users[i:i + batch_size]` for `i in range(0, len(users),
batch_size)`. A zero step makes Python's `range` raise `ValueError`; the
callers require a positive `batchSize`, and the zero-step case is mapped to
`[]` (it is excluded by hypothesis in every theorem below). -/
def makeBatches {α : Type} (b : Nat) (l : List α) : List (List α) :=
  makeBatchesFuel l.length b l

/-- `datetime.combine(current_date, time(hour, minute))` as absolute minutes
(line 486). -/
def combineDateTime (date hour minute : Nat) : Nat :=
  date * 1440 + hour * 60 + minute

/-- One pass of `while current_date.weekday() == 6: current_date += 1 day`
(lines 462-463 and 478-479), with fuel; the day after a Sunday is a Monday,
so the loop body runs at most once. -/
def skipSundaysFuel : Nat → Nat → Nat
  | 0, d => d
  | fuel + 1, d => if d % 7 = 6 then skipSundaysFuel fuel (d + 1) else d

/-- The source's Sunday-skipping loop. -/
def skipSundays (d : Nat) : Nat := skipSundaysFuel 7 d

/-- The remarks label `f"Batch {batch_number} - Group {current_group}"`. -/
def remarksLabel (batchNumber groupNumber : Nat) : String :=
  "Batch " ++ toString batchNumber ++ " - Group " ++ toString groupNumber

/-- Lines 493-511: set the user's group number and stamp all three rounds as
scheduled at the batch's three stage datetimes. -/
def stampUser (groupNumber batchNumber gdTime screeningTime interviewTime : Nat)
    (u : User) : User :=
  { u with
    groupNumber := groupNumber
    gd := some { status := "scheduled", datetime := gdTime,
                 remarks := .text (remarksLabel batchNumber groupNumber) }
    screening := some { status := "scheduled", datetime := screeningTime,
                        remarks := .text (remarksLabel batchNumber groupNumber) }
    pi := some { status := "scheduled", datetime := interviewTime,
                 remarks := .textList [remarksLabel batchNumber groupNumber] } }

/-- Lines 492-514: stamp and persist every user of one batch, in order,
collecting the batch's email list. A failing `engine.save` raises: the
error is returned together with the write log accumulated so far. -/
def saveBatch (saveErr : User → Option String)
    (groupNumber batchNumber gdTime screeningTime interviewTime : Nat) :
    List User → List User → List String →
    Except (String × List User) (List User × List String)
  | [], savedLog, batchEmails => .ok (savedLog, batchEmails)
  | u :: rest, savedLog, batchEmails =>
    let u2 := stampUser groupNumber batchNumber gdTime screeningTime interviewTime u
    match saveErr u2 with
    | some msg => .error (msg, savedLog)
    | none =>
      saveBatch saveErr groupNumber batchNumber gdTime screeningTime interviewTime
        rest (savedLog ++ [u2]) (batchEmails ++ [u2.email])

/-- Lines 459-464: when today's quota is used up, move to the next day,
skipping Sundays, and reset the per-day counter. -/
def rolloverIfNeeded (maxBatchesPerDay : Int) (st : SchedState) : SchedState :=
  if maxBatchesPerDay ≤ (st.batchesToday : Int) then
    { st with currentDate := skipSundays (st.currentDate + 1), batchesToday := 0 }
  else st

/-- Lines 466-483: the tentative batch start is `start + k * duration`
(pipelined schedule); if its three stages would cross `endTime`, defer the
whole batch to the next eligible day at `startTime`. Returns the updated
state and the batch's start minute of day. -/
def fitOrDefer (startMinutes endMinutes roundDuration : Nat) (st : SchedState) :
    SchedState × Nat :=
  let batchStartMinutes := startMinutes + st.batchesToday * roundDuration
  if endMinutes < batchStartMinutes + 3 * roundDuration then
    ({ st with currentDate := skipSundays (st.currentDate + 1), batchesToday := 0 },
      startMinutes)
  else (st, batchStartMinutes)

/-- Lines 457-531: the scheduling loop over the user batches. -/
def schedLoop (saveErr : User → Option String)
    (startMinutes endMinutes roundDuration : Nat) (maxBatchesPerDay : Int) :
    List (List User) → SchedState → Except (String × List User) SchedState
  | [], st => .ok st
  | userBatch :: rest, st =>
    let st1 := rolloverIfNeeded maxBatchesPerDay st
    let fd := fitOrDefer startMinutes endMinutes roundDuration st1
    let st2 := fd.1
    let bsm := fd.2
    let gdTime := combineDateTime st2.currentDate (bsm / 60) (bsm % 60)
    let screeningTime := gdTime + roundDuration
    let interviewTime := screeningTime + roundDuration
    match saveBatch saveErr st2.currentGroup st2.batchNumber
        gdTime screeningTime interviewTime userBatch st2.savedLog [] with
    | .error e => .error e
    | .ok p =>
      let binfo : BatchResult :=
        { batchNumber := st2.batchNumber, groupNumber := st2.currentGroup,
          users := p.2, gdTime := gdTime % 1440,
          screeningTime := screeningTime % 1440,
          interviewTime := interviewTime % 1440, date := st2.currentDate }
      schedLoop saveErr startMinutes endMinutes roundDuration maxBatchesPerDay rest
        { batches := st.batches ++ [binfo], batchNumber := st.batchNumber + 1,
          currentGroup := st.currentGroup + 1, currentDate := st2.currentDate,
          batchesToday := st2.batchesToday + 1, savedLog := p.1 }

/-- Line 446: `max(1, (total - 2 * duration) // duration + 1)` over Python
ints (floor division). -/
def maxBatchesPerDayCalc (startMinutes endMinutes roundDuration : Nat) : Int :=
  max 1 ((((endMinutes : Int) - (startMinutes : Int)) - 2 * (roundDuration : Int)).fdiv
    (roundDuration : Int) + 1)

/-- Lines 452-455: the loop's initial state. -/
def initState (lastGroupNumber startDate : Nat) : SchedState :=
  { batches := [], batchNumber := 1, currentGroup := lastGroupNumber + 1,
    currentDate := startDate, batchesToday := 0, savedLog := [] }

/-- The capacity `ValueError` of line 449. -/
def capacityErrorMsg : String :=
  "Not enough time in the day to complete even one batch (need at least 3 * roundDuration minutes)"

/-- `UserService.bulk_create_rounds` (lines 389-538). `lookup` is
`get_user_by_email`, `lastGroupNumber` the result of
`get_last_group_number()` (queried once, line 418), `shuffle` the
`random.shuffle` permutation of line 415, `saveErr` the outcome of
`engine.save`. -/
def bulk_create_rounds (lookup : String → Option User) (lastGroupNumber : Nat)
    (shuffle : List User → List User) (saveErr : User → Option String)
    (emails : List String) (batchSize : Nat) (startDate : Nat)
    (startMinutes endMinutes : Nat) (roundDuration : Nat) : RunOutcome :=
  -- lines 400-409
  let fetched := fetchUsers lookup emails
  -- lines 411-412
  if fetched.1.isEmpty then
    { result := .ok { totalUsersScheduled := 0, totalBatches := 0, batches := [],
                      failed := fetched.2 },
      savedLog := [] }
  else
    -- line 415
    let users := shuffle fetched.1
    -- lines 437-439
    let userBatches := makeBatches batchSize users
    -- lines 448-449 (line 427-429: the window is Python-int subtraction)
    if ((endMinutes : Int) - (startMinutes : Int)) < 3 * (roundDuration : Int) then
      { result := .error capacityErrorMsg, savedLog := [] }
    else
      -- lines 451-531; line 419 gives the loop's initial group number
      match schedLoop saveErr startMinutes endMinutes roundDuration
          (maxBatchesPerDayCalc startMinutes endMinutes roundDuration) userBatches
          (initState lastGroupNumber startDate) with
      | .error e => { result := .error e.1, savedLog := e.2 }
      | .ok st =>
        -- lines 533-538
        { result := .ok { totalUsersScheduled := users.length,
                          totalBatches := userBatches.length,
                          batches := st.batches, failed := fetched.2 },
          savedLog := st.savedLog }

/-- A calendar day the loop may schedule on: either the run's `startDate`
itself (never checked against the rest day by the source) or a day that is
not a Sunday. -/
def goodDate (startDate d : Nat) : Prop := d = startDate ∨ d % 7 ≠ 6

/-- The shape of every batch entry the loop produces: an eligible date and
three pipelined stage times derived from a start minute whose full
three-stage window fits before `endMinutes`. -/
def batchOk (startDate endMinutes roundDuration : Nat) (bt : BatchResult) : Prop :=
  goodDate startDate bt.date ∧
  ∃ bsm : Nat, bsm + 3 * roundDuration ≤ endMinutes ∧
    bt.gdTime = bsm % 1440 ∧
    bt.screeningTime = (bsm + roundDuration) % 1440 ∧
    bt.interviewTime = (bsm + 2 * roundDuration) % 1440

/-- A persisted record carries all three rounds scheduled with
`screening = gd + roundDuration` and `pi = screening + roundDuration`. -/
def wellStamped (roundDuration : Nat) (u : User) : Prop :=
  ∃ gi si pii, u.gd = some gi ∧ u.screening = some si ∧ u.pi = some pii ∧
    si.datetime = gi.datetime + roundDuration ∧
    pii.datetime = si.datetime + roundDuration

/-! Concrete scenario data used by the closed theorems below. Day 0 is a
Monday; day 6 is a Sunday. 1020 = 17:00, 1260 = 21:00, 1045 = 17:25. -/

/-- A stored candidate record. -/
def userA : User :=
  { email := "a@x.com", groupNumber := 0, gd := none, screening := none, pi := none }

/-- A second stored candidate record. -/
def userB : User :=
  { email := "b@x.com", groupNumber := 0, gd := none, screening := none, pi := none }

/-- A Candidate Directory holding exactly `userA` and `userB`, keyed by
email. -/
def lookupW : String → Option User := fun e =>
  if e = "a@x.com" then some userA else if e = "b@x.com" then some userB else none

/-- An `engine.save` that always succeeds. -/
def noSaveErr : User → Option String := fun _ => none

/-- An `engine.save` that raises on the record with email `b@x.com`. -/
def saveErrB : User → Option String :=
  fun u => if u.email = "b@x.com" then some "db write failed" else none

/-- Expected result of the base scenario: both users in one batch at
17:00/17:10/17:20 on the start date (spec Scenario A). -/
def resW : RunResult :=
  { totalUsersScheduled := 2, totalBatches := 1,
    batches := [{ batchNumber := 1, groupNumber := 1,
                  users := ["a@x.com", "b@x.com"], gdTime := 1020,
                  screeningTime := 1030, interviewTime := 1040, date := 0 }],
    failed := [] }

/-- Expected result of the pipelined scenario: batch size 1, so two batches
with consecutive group numbers whose GD starts are `roundDuration` apart
(spec Scenario B shape). -/
def resW2 : RunResult :=
  { totalUsersScheduled := 2, totalBatches := 2,
    batches := [{ batchNumber := 1, groupNumber := 1, users := ["a@x.com"],
                  gdTime := 1020, screeningTime := 1030, interviewTime := 1040,
                  date := 0 },
                { batchNumber := 2, groupNumber := 2, users := ["b@x.com"],
                  gdTime := 1030, screeningTime := 1040, interviewTime := 1050,
                  date := 0 }],
    failed := [] }

/-- Expected result of the missing-email scenario: three requested emails of
which one does not resolve, batch size 2. -/
def resW3 : RunResult :=
  { totalUsersScheduled := 2, totalBatches := 1,
    batches := [{ batchNumber := 1, groupNumber := 1,
                  users := ["a@x.com", "b@x.com"], gdTime := 1020,
                  screeningTime := 1030, interviewTime := 1040, date := 0 }],
    failed := [{ email := "c@x.com", reason := "User not found" }] }

/-- Expected result of the duplicate-email scenario: the same resolving
email requested twice. -/
def resW10 : RunResult :=
  { totalUsersScheduled := 2, totalBatches := 1,
    batches := [{ batchNumber := 1, groupNumber := 1,
                  users := ["a@x.com", "a@x.com"], gdTime := 1020,
                  screeningTime := 1030, interviewTime := 1040, date := 0 }],
    failed := [] }

/-! ### Basic lemmas about the building blocks -/

theorem skipSundays_eq (d : Nat) : skipSundays d = if d % 7 = 6 then d + 1 else d := by
  by_cases h : d % 7 = 6
  · have h2 : ¬ (d + 1) % 7 = 6 := by omega
    simp [skipSundays, skipSundaysFuel, h, h2]
  · simp [skipSundays, skipSundaysFuel, h]

theorem skipSundays_not_sunday (d : Nat) : skipSundays d % 7 ≠ 6 := by
  rw [skipSundays_eq]; split <;> omega

theorem combineDateTime_eq (d m : Nat) :
    combineDateTime d (m / 60) (m % 60) = d * 1440 + m := by
  unfold combineDateTime; omega

theorem makeBatchesFuel_flatten {α : Type} :
    ∀ (fuel b : Nat) (l : List α), l.length ≤ fuel → 0 < b →
      (makeBatchesFuel fuel b l).flatten = l := by
  intro fuel
  induction fuel with
  | zero =>
    intro b l hl hb
    cases l with
    | nil => rfl
    | cons x xs => simp at hl
  | succ fuel ih =>
    intro b l hl hb
    cases l with
    | nil => rfl
    | cons x xs =>
      cases b with
      | zero => omega
      | succ c =>
        simp only [List.length_cons] at hl
        have hdrop : ((x :: xs).drop (c + 1)).length ≤ fuel := by
          simp only [List.length_drop, List.length_cons]
          omega
        simp only [makeBatchesFuel, List.flatten_cons]
        rw [ih (c + 1) _ hdrop (by omega)]
        exact List.take_append_drop _ _

theorem makeBatches_flatten {α : Type} (b : Nat) (hb : 0 < b) (l : List α) :
    (makeBatches b l).flatten = l :=
  makeBatchesFuel_flatten l.length b l (le_refl _) hb

theorem makeBatchesFuel_length {α : Type} :
    ∀ (fuel b : Nat) (l : List α), l.length ≤ fuel → 0 < b →
      (makeBatchesFuel fuel b l).length = (l.length + b - 1) / b := by
  intro fuel
  induction fuel with
  | zero =>
    intro b l hl hb
    cases l with
    | nil =>
      simp only [makeBatchesFuel, List.length_nil]
      symm
      apply Nat.div_eq_of_lt
      omega
    | cons x xs => simp at hl
  | succ fuel ih =>
    intro b l hl hb
    cases l with
    | nil =>
      simp only [makeBatchesFuel, List.length_nil]
      symm
      apply Nat.div_eq_of_lt
      omega
    | cons x xs =>
      cases b with
      | zero => omega
      | succ c =>
        simp only [List.length_cons] at hl
        have hdrop : ((x :: xs).drop (c + 1)).length ≤ fuel := by
          simp only [List.length_drop, List.length_cons]
          omega
        simp only [makeBatchesFuel, List.length_cons]
        rw [ih (c + 1) _ hdrop (by omega), List.length_drop]
        simp only [List.length_cons, Nat.succ_eq_add_one]
        rcases le_or_lt (xs.length + 1) (c + 1) with hle | hlt
        · have h1 : (xs.length + 1 : Nat) - (c + 1) = 0 := by omega
          rw [h1]
          have h2 : ((0 + (c + 1) - 1 : Nat)) / (c + 1) = 0 := Nat.div_eq_of_lt (by omega)
          rw [h2]
          have h3 : ((xs.length + 1 + (c + 1) - 1 : Nat)) / (c + 1) = 1 := by
            apply Nat.div_eq_of_lt_le <;> omega
          rw [h3]
        · have h1 : (xs.length + 1 : Nat) - (c + 1) + (c + 1) - 1 = xs.length := by omega
          have h2 : (xs.length + 1 + (c + 1) - 1 : Nat) = xs.length + (c + 1) := by omega
          rw [h1, h2, Nat.add_div_right _ (by omega)]

theorem makeBatches_length {α : Type} (b : Nat) (hb : 0 < b) (l : List α) :
    (makeBatches b l).length = (l.length + b - 1) / b :=
  makeBatchesFuel_length l.length b l (le_refl _) hb

theorem makeBatchesFuel_sizes {α : Type} :
    ∀ (fuel b : Nat) (l : List α), 0 < b →
      ∀ c ∈ makeBatchesFuel fuel b l, c.length ≤ b := by
  intro fuel
  induction fuel with
  | zero =>
    intro b l hb g hg
    cases l with
    | nil => simp [makeBatchesFuel] at hg
    | cons x xs =>
      cases b with
      | zero => omega
      | succ c => simp [makeBatchesFuel] at hg
  | succ fuel ih =>
    intro b l hb g hg
    cases l with
    | nil => simp [makeBatchesFuel] at hg
    | cons x xs =>
      cases b with
      | zero => omega
      | succ c =>
        simp only [makeBatchesFuel, List.mem_cons] at hg
        rcases hg with rfl | hg
        · simp only [List.length_take]
          omega
        · exact ih (c + 1) _ (by omega) g hg

theorem makeBatches_sizes {α : Type} (b : Nat) (hb : 0 < b) (l : List α) :
    ∀ c ∈ makeBatches b l, c.length ≤ b :=
  makeBatchesFuel_sizes l.length b l hb

/-! ### Lemmas about the fetch phase (lines 400-412) -/

theorem fetchUsers_found_length (lookup : String → Option User) (emails : List String) :
    (fetchUsers lookup emails).1.length =
      (emails.filter (fun e => (lookup e).isSome)).length := by
  induction emails with
  | nil => rfl
  | cons e rest ih =>
    simp only [fetchUsers, List.filter_cons]
    cases h : lookup e <;> simp [h, ih]

theorem fetchUsers_failed (lookup : String → Option User) (emails : List String) :
    (fetchUsers lookup emails).2 =
      (emails.filter (fun e => (lookup e).isNone)).map
        (fun e => { email := e, reason := "User not found" }) := by
  induction emails with
  | nil => rfl
  | cons e rest ih =>
    simp only [fetchUsers, List.filter_cons]
    cases h : lookup e <;> simp [h, ih]

theorem fetchUsers_all_none (lookup : String → Option User) (emails : List String)
    (h : ∀ e ∈ emails, lookup e = none) :
    fetchUsers lookup emails =
      ([], emails.map (fun e => { email := e, reason := "User not found" })) := by
  induction emails with
  | nil => rfl
  | cons e rest ih =>
    have he := h e (by simp)
    simp only [fetchUsers, he]
    rw [ih (fun x hx => h x (by simp [hx]))]
    simp

theorem fetchUsers_emails (lookup : String → Option User)
    (hkey : ∀ e u, lookup e = some u → u.email = e) (emails : List String) :
    (fetchUsers lookup emails).1.map (fun u => u.email) =
      emails.filter (fun e => (lookup e).isSome) := by
  induction emails with
  | nil => rfl
  | cons e rest ih =>
    simp only [fetchUsers, List.filter_cons]
    cases h : lookup e with
    | none => simp [h, ih]
    | some u => simp [h, ih, hkey e u h]

/-! ### Lemmas about persisting one batch (lines 492-514) -/

theorem stampUser_email (g bn t1 t2 t3 : Nat) (u : User) :
    (stampUser g bn t1 t2 t3 u).email = u.email := rfl

theorem wellStamped_stamp (dur g bn t : Nat) (u : User) :
    wellStamped dur (stampUser g bn t (t + dur) (t + dur + dur) u) :=
  ⟨_, _, _, rfl, rfl, rfl, rfl, rfl⟩

theorem saveBatch_ok (saveErr : User → Option String) (g bn t1 t2 t3 : Nat) :
    ∀ (ub savedLog : List User) (batchEmails : List String)
      (p : List User × List String),
      saveBatch saveErr g bn t1 t2 t3 ub savedLog batchEmails = .ok p →
      p.1 = savedLog ++ ub.map (stampUser g bn t1 t2 t3) ∧
      p.2 = batchEmails ++ ub.map (fun u => u.email) := by
  intro ub
  induction ub with
  | nil =>
    intro log acc p h
    simp only [saveBatch] at h
    injection h with h
    subst h
    simp
  | cons u rest ih =>
    intro log acc p h
    simp only [saveBatch] at h
    split at h
    · exact absurd h (by simp)
    · obtain ⟨h1, h2⟩ := ih _ _ _ h
      refine ⟨?_, ?_⟩
      · rw [h1]; simp [stampUser]
      · rw [h2]; simp [stampUser]

/-! ### Lemmas about the two rollover steps (lines 459-483) -/

@[simp] theorem rolloverIfNeeded_batches (m : Int) (st : SchedState) :
    (rolloverIfNeeded m st).batches = st.batches := by
  unfold rolloverIfNeeded; split <;> rfl

@[simp] theorem rolloverIfNeeded_batchNumber (m : Int) (st : SchedState) :
    (rolloverIfNeeded m st).batchNumber = st.batchNumber := by
  unfold rolloverIfNeeded; split <;> rfl

@[simp] theorem rolloverIfNeeded_currentGroup (m : Int) (st : SchedState) :
    (rolloverIfNeeded m st).currentGroup = st.currentGroup := by
  unfold rolloverIfNeeded; split <;> rfl

@[simp] theorem rolloverIfNeeded_savedLog (m : Int) (st : SchedState) :
    (rolloverIfNeeded m st).savedLog = st.savedLog := by
  unfold rolloverIfNeeded; split <;> rfl

@[simp] theorem fitOrDefer_batches (sm em dur : Nat) (st : SchedState) :
    (fitOrDefer sm em dur st).1.batches = st.batches := by
  simp only [fitOrDefer]; split <;> rfl

@[simp] theorem fitOrDefer_batchNumber (sm em dur : Nat) (st : SchedState) :
    (fitOrDefer sm em dur st).1.batchNumber = st.batchNumber := by
  simp only [fitOrDefer]; split <;> rfl

@[simp] theorem fitOrDefer_currentGroup (sm em dur : Nat) (st : SchedState) :
    (fitOrDefer sm em dur st).1.currentGroup = st.currentGroup := by
  simp only [fitOrDefer]; split <;> rfl

@[simp] theorem fitOrDefer_savedLog (sm em dur : Nat) (st : SchedState) :
    (fitOrDefer sm em dur st).1.savedLog = st.savedLog := by
  simp only [fitOrDefer]; split <;> rfl

theorem rolloverIfNeeded_goodDate (sd : Nat) (m : Int) (st : SchedState)
    (h : goodDate sd st.currentDate) :
    goodDate sd (rolloverIfNeeded m st).currentDate := by
  unfold rolloverIfNeeded; split
  · exact Or.inr (skipSundays_not_sunday _)
  · exact h

theorem fitOrDefer_goodDate (sd sm em dur : Nat) (st : SchedState)
    (h : goodDate sd st.currentDate) :
    goodDate sd (fitOrDefer sm em dur st).1.currentDate := by
  simp only [fitOrDefer]; split
  · exact Or.inr (skipSundays_not_sunday _)
  · exact h

theorem fitOrDefer_le (sm em dur : Nat) (st : SchedState)
    (hcap : sm + 3 * dur ≤ em) :
    (fitOrDefer sm em dur st).2 + 3 * dur ≤ em := by
  simp only [fitOrDefer]; split
  · exact hcap
  · next h => exact Nat.le_of_not_lt h

/-! ### Invariants of the scheduling loop (lines 457-531) -/

theorem schedLoop_groups (saveErr : User → Option String) (sm em dur : Nat) (m : Int) :
    ∀ (ubs : List (List User)) (st st' : SchedState),
      schedLoop saveErr sm em dur m ubs st = .ok st' →
      st'.batches.map (fun bt => bt.groupNumber) =
        st.batches.map (fun bt => bt.groupNumber) ++
          List.range' st.currentGroup ubs.length := by
  intro ubs
  induction ubs with
  | nil =>
    intro st st' h
    simp only [schedLoop] at h
    injection h with h
    subst h
    simp
  | cons ub rest ih =>
    intro st st' h
    simp only [schedLoop] at h
    split at h
    · exact absurd h (by simp)
    · rw [ih _ _ h]
      simp only [List.map_append, rolloverIfNeeded_currentGroup, fitOrDefer_currentGroup,
        List.length_cons, List.range'_succ, List.map_cons, List.map_nil, List.append_assoc,
        List.singleton_append]

theorem schedLoop_batchOk (saveErr : User → Option String) (sd sm em dur : Nat) (m : Int)
    (hcap : sm + 3 * dur ≤ em) :
    ∀ (ubs : List (List User)) (st st' : SchedState),
      goodDate sd st.currentDate →
      (∀ bt ∈ st.batches, batchOk sd em dur bt) →
      schedLoop saveErr sm em dur m ubs st = .ok st' →
      ∀ bt ∈ st'.batches, batchOk sd em dur bt := by
  intro ubs
  induction ubs with
  | nil =>
    intro st st' hgd hbs h
    simp only [schedLoop] at h
    injection h with h
    subst h
    exact hbs
  | cons ub rest ih =>
    intro st st' hgd hbs h
    simp only [schedLoop] at h
    split at h
    · exact absurd h (by simp)
    · refine ih _ _ ?_ ?_ h
      · exact fitOrDefer_goodDate sd sm em dur _ (rolloverIfNeeded_goodDate sd m st hgd)
      · intro bt hbt
        rcases List.mem_append.mp hbt with hbt | hbt
        · exact hbs bt hbt
        · rcases List.mem_singleton.mp hbt with rfl
          refine ⟨fitOrDefer_goodDate sd sm em dur _ (rolloverIfNeeded_goodDate sd m st hgd),
            (fitOrDefer sm em dur (rolloverIfNeeded m st)).2,
            fitOrDefer_le sm em dur _ hcap, ?_, ?_, ?_⟩
          · simp only [combineDateTime_eq]; omega
          · simp only [combineDateTime_eq]; omega
          · simp only [combineDateTime_eq]; omega

theorem schedLoop_savedEmails (saveErr : User → Option String) (sm em dur : Nat) (m : Int) :
    ∀ (ubs : List (List User)) (st st' : SchedState),
      schedLoop saveErr sm em dur m ubs st = .ok st' →
      st'.savedLog.map (fun u => u.email) =
        st.savedLog.map (fun u => u.email) ++ ubs.flatten.map (fun u => u.email) := by
  intro ubs
  induction ubs with
  | nil =>
    intro st st' h
    simp only [schedLoop] at h
    injection h with h
    subst h
    simp
  | cons ub rest ih =>
    intro st st' h
    simp only [schedLoop] at h
    split at h
    · exact absurd h (by simp)
    · rename_i p hp
      obtain ⟨hp1, -⟩ := saveBatch_ok _ _ _ _ _ _ _ _ _ _ hp
      rw [ih _ _ h]
      simp only [hp1, fitOrDefer_savedLog, rolloverIfNeeded_savedLog, List.flatten_cons,
        List.map_append, List.map_map, List.append_assoc]
      simp [Function.comp, stampUser]

theorem schedLoop_wellStamped (saveErr : User → Option String) (sm em dur : Nat) (m : Int) :
    ∀ (ubs : List (List User)) (st st' : SchedState),
      (∀ u ∈ st.savedLog, wellStamped dur u) →
      schedLoop saveErr sm em dur m ubs st = .ok st' →
      ∀ u ∈ st'.savedLog, wellStamped dur u := by
  intro ubs
  induction ubs with
  | nil =>
    intro st st' hst h
    simp only [schedLoop] at h
    injection h with h
    subst h
    exact hst
  | cons ub rest ih =>
    intro st st' hst h
    simp only [schedLoop] at h
    split at h
    · exact absurd h (by simp)
    · rename_i p hp
      obtain ⟨hp1, -⟩ := saveBatch_ok _ _ _ _ _ _ _ _ _ _ hp
      refine ih _ _ ?_ h
      intro u hu
      replace hu : u ∈ p.1 := hu
      rw [hp1] at hu
      simp only [fitOrDefer_savedLog, rolloverIfNeeded_savedLog] at hu
      rcases List.mem_append.mp hu with hu | hu
      · exact hst u hu
      · rcases List.mem_map.mp hu with ⟨x, -, rfl⟩
        exact wellStamped_stamp _ _ _ _ _

/-! ### Success-shape inversion for the whole call -/

theorem bulk_ok_cases (lookup : String → Option User) (lastG : Nat)
    (shuffle : List User → List User) (saveErr : User → Option String)
    (emails : List String) (b sd sm em dur : Nat) (r : RunResult)
    (hres : (bulk_create_rounds lookup lastG shuffle saveErr
      emails b sd sm em dur).result = .ok r) :
    ((fetchUsers lookup emails).1 = [] ∧
      r = { totalUsersScheduled := 0, totalBatches := 0, batches := [],
            failed := (fetchUsers lookup emails).2 } ∧
      (bulk_create_rounds lookup lastG shuffle saveErr
        emails b sd sm em dur).savedLog = []) ∨
    ((fetchUsers lookup emails).1 ≠ [] ∧
      3 * (dur : Int) ≤ (em : Int) - (sm : Int) ∧
      ∃ st' : SchedState,
        schedLoop saveErr sm em dur (maxBatchesPerDayCalc sm em dur)
            (makeBatches b (shuffle (fetchUsers lookup emails).1))
            (initState lastG sd) = .ok st' ∧
        r = { totalUsersScheduled := (shuffle (fetchUsers lookup emails).1).length,
              totalBatches := (makeBatches b (shuffle (fetchUsers lookup emails).1)).length,
              batches := st'.batches,
              failed := (fetchUsers lookup emails).2 } ∧
        (bulk_create_rounds lookup lastG shuffle saveErr
          emails b sd sm em dur).savedLog = st'.savedLog) := by
  by_cases h1 : (fetchUsers lookup emails).1.isEmpty
  · left
    have h0 : (fetchUsers lookup emails).1 = [] := List.isEmpty_iff.mp h1
    simp only [bulk_create_rounds, h1, if_true] at hres
    injection hres with hres
    exact ⟨h0, hres.symm, by simp [bulk_create_rounds, h1]⟩
  · right
    have h0 : (fetchUsers lookup emails).1 ≠ [] := by
      intro hh
      exact h1 (by simp [hh])
    by_cases h2 : ((em : Int) - (sm : Int)) < 3 * (dur : Int)
    · simp [bulk_create_rounds, h1, h2] at hres
    · cases hsl : schedLoop saveErr sm em dur (maxBatchesPerDayCalc sm em dur)
          (makeBatches b (shuffle (fetchUsers lookup emails).1))
          (initState lastG sd) with
      | error e => simp [bulk_create_rounds, h1, h2, hsl] at hres
      | ok st' =>
        have hbulk : bulk_create_rounds lookup lastG shuffle saveErr emails b sd sm em dur =
            { result := .ok { totalUsersScheduled :=
                                (shuffle (fetchUsers lookup emails).1).length,
                              totalBatches :=
                                (makeBatches b (shuffle (fetchUsers lookup emails).1)).length,
                              batches := st'.batches,
                              failed := (fetchUsers lookup emails).2 },
              savedLog := st'.savedLog } := by
          simp [bulk_create_rounds, h1, h2, hsl]
        rw [hbulk] at hres
        refine ⟨h0, by omega, st', rfl, (Except.ok.inj hres).symm, ?_⟩
        rw [hbulk]

/-- The concrete Directory `lookupW` is keyed by email. -/
theorem lookupW_keyed : ∀ e u, lookupW e = some u → u.email = e := by
  intro e u h
  unfold lookupW at h
  split at h
  · next he =>
    injection h with h2
    subst h2
    exact he.symm
  · split at h
    · next he =>
      injection h with h2
      subst h2
      exact he.symm
    · exact absurd h (by simp)

/-! ### Claim theorems -/

/-- Claim C8: for every candidate list and every positive batch size `b`,
the partition of lines 437-439 yields `ceil(n / b)` batches, each of size at
most `b`, and the concatenation of the batches is exactly the input list -
so every input candidate appears in exactly one batch and batch order
matches the input order of the (pre-shuffled) sequence. -/
theorem C8_partition_correctness (α : Type) (b : Nat) (hb : 0 < b) (l : List α) :
    (makeBatches b l).length = (l.length + b - 1) / b ∧
    (∀ c ∈ makeBatches b l, c.length ≤ b) ∧
    (makeBatches b l).flatten = l :=
  ⟨makeBatches_length b hb l, makeBatches_sizes b hb l, makeBatches_flatten b hb l⟩

/-- Witness for C8 at a concrete input: two stored candidates, batch size 1. -/
theorem C8_partition_correctness_witness :
    0 < 1 ∧
    ((makeBatches 1 [userA, userB]).length = ([userA, userB].length + 1 - 1) / 1 ∧
      (∀ c ∈ makeBatches 1 [userA, userB], c.length ≤ 1) ∧
      (makeBatches 1 [userA, userB]).flatten = [userA, userB]) :=
  ⟨by decide, C8_partition_correctness User 1 (by decide) [userA, userB]⟩

/-- Claim C9: when no requested email resolves to a stored candidate, the
run returns the zero summary with one "User not found" failure per email,
for every time window - in particular no capacity error is raised even when
`endTime - startTime < 3 * roundDuration` (no window validation happens on
this path). -/
theorem C9_no_users_early_return (lookup : String → Option User) (lastG : Nat)
    (shuffle : List User → List User) (saveErr : User → Option String)
    (emails : List String) (b sd sm em dur : Nat)
    (h : ∀ e ∈ emails, lookup e = none) :
    bulk_create_rounds lookup lastG shuffle saveErr emails b sd sm em dur =
      { result := .ok { totalUsersScheduled := 0, totalBatches := 0, batches := [],
                        failed := emails.map
                          (fun e => { email := e, reason := "User not found" }) },
        savedLog := [] } := by
  have hf := fetchUsers_all_none lookup emails h
  simp [bulk_create_rounds, hf]

/-- Witness for C9 at a concrete input whose window is smaller than
`3 * roundDuration` (25 < 30 minutes): still the zero summary, no error. -/
theorem C9_no_users_early_return_witness :
    (∀ e ∈ ["a@x.com"], (fun (_ : String) => (none : Option User)) e = none) ∧
    ((1045 : Int) - (1020 : Int) < 3 * (10 : Int)) ∧
    bulk_create_rounds (fun _ => none) 0 id noSaveErr ["a@x.com"] 2 0 1020 1045 10 =
      { result := .ok { totalUsersScheduled := 0, totalBatches := 0, batches := [],
                        failed := [{ email := "a@x.com", reason := "User not found" }] },
        savedLog := [] } :=
  ⟨fun e _ => rfl, by decide,
    C9_no_users_early_return (fun _ => none) 0 id noSaveErr ["a@x.com"] 2 0 1020 1045 10
      (fun e _ => rfl)⟩

/-- Counterexample to Claim C4 as stated: an input whose window is smaller
than `3 * roundDuration` but in which no email resolves returns the zero
summary - no capacity error is raised, because the no-users early return of
lines 411-412 precedes the window check of lines 448-449. -/
theorem C4_cx_no_capacity_error_without_users :
    ((1045 : Int) - (1020 : Int) < 3 * (10 : Int)) ∧
    (bulk_create_rounds (fun _ => none) 0 id noSaveErr
        ["a@x.com"] 2 0 1020 1045 10).result =
      .ok { totalUsersScheduled := 0, totalBatches := 0, batches := [],
            failed := [{ email := "a@x.com", reason := "User not found" }] } :=
  ⟨by decide, rfl⟩

/-- Claim C4 (amended): for every input with at least one resolved candidate
and `endTime - startTime < 3 * roundDuration`, the run raises the capacity
`ValueError` as a single run-level failure, schedules no batch and persists
no candidate record. -/
theorem C4_capacity_error (lookup : String → Option User) (lastG : Nat)
    (shuffle : List User → List User) (saveErr : User → Option String)
    (emails : List String) (b sd sm em dur : Nat)
    (husers : (fetchUsers lookup emails).1 ≠ [])
    (hcap : (em : Int) - (sm : Int) < 3 * (dur : Int)) :
    (bulk_create_rounds lookup lastG shuffle saveErr emails b sd sm em dur).result =
      .error capacityErrorMsg ∧
    (bulk_create_rounds lookup lastG shuffle saveErr emails b sd sm em dur).savedLog = [] := by
  have h1 : ¬ (fetchUsers lookup emails).1.isEmpty = true :=
    fun hh => husers (List.isEmpty_iff.mp hh)
  constructor <;> simp [bulk_create_rounds, h1, hcap]

/-- Witness for C4 (amended): one resolved candidate, 25-minute window,
10-minute rounds. -/
theorem C4_capacity_error_witness :
    (fetchUsers lookupW ["a@x.com"]).1 ≠ [] ∧
    ((1045 : Int) - (1020 : Int) < 3 * (10 : Int)) ∧
    ((bulk_create_rounds lookupW 0 id noSaveErr ["a@x.com"] 2 0 1020 1045 10).result =
        .error capacityErrorMsg ∧
      (bulk_create_rounds lookupW 0 id noSaveErr ["a@x.com"] 2 0 1020 1045 10).savedLog = []) :=
  ⟨by decide, by decide,
    C4_capacity_error lookupW 0 id noSaveErr ["a@x.com"] 2 0 1020 1045 10
      (by decide) (by decide)⟩

/-- Counterexample to Claim C2: a failing `engine.save` on the second
candidate of a batch makes the whole run raise - the result is the raised
error, not a summary with an accumulated failure - and the remaining
candidates are not processed (the write log stops at the first candidate). -/
theorem C2_cx_save_failure_aborts :
    (bulk_create_rounds lookupW 0 id saveErrB
        ["a@x.com", "b@x.com"] 2 0 1020 1260 10).result = .error "db write failed" ∧
    (bulk_create_rounds lookupW 0 id saveErrB
        ["a@x.com", "b@x.com"] 2 0 1020 1260 10).savedLog.map (fun u => u.email) =
      ["a@x.com"] :=
  ⟨rfl, rfl⟩

/-- Claim C2 (amended): a per-candidate persistence failure is never
accumulated into `failed` - it aborts the run instead (see the
counterexample). Whenever the run returns a summary, its `failed` list is
exactly the fetch-phase not-found list, every entry carrying reason
"User not found". -/
theorem C2_failed_only_not_found (lookup : String → Option User) (lastG : Nat)
    (shuffle : List User → List User) (saveErr : User → Option String)
    (emails : List String) (b sd sm em dur : Nat) (r : RunResult)
    (hres : (bulk_create_rounds lookup lastG shuffle saveErr
      emails b sd sm em dur).result = .ok r) :
    r.failed = (fetchUsers lookup emails).2 ∧
    ∀ f ∈ r.failed, f.reason = "User not found" := by
  have hfailed : r.failed = (fetchUsers lookup emails).2 := by
    rcases bulk_ok_cases lookup lastG shuffle saveErr emails b sd sm em dur r hres with
      ⟨-, hr, -⟩ | ⟨-, -, st', -, hr, -⟩ <;> subst hr <;> rfl
  refine ⟨hfailed, ?_⟩
  rw [hfailed, fetchUsers_failed]
  intro f hf
  rcases List.mem_map.mp hf with ⟨e, -, rfl⟩
  rfl

/-- Witness for C2 (amended) at the base scenario (all saves succeed). -/
theorem C2_failed_only_not_found_witness :
    (bulk_create_rounds lookupW 0 id noSaveErr
        ["a@x.com", "b@x.com"] 2 0 1020 1260 10).result = .ok resW ∧
    (resW.failed = (fetchUsers lookupW ["a@x.com", "b@x.com"]).2 ∧
      ∀ f ∈ resW.failed, f.reason = "User not found") :=
  ⟨rfl, C2_failed_only_not_found lookupW 0 id noSaveErr
    ["a@x.com", "b@x.com"] 2 0 1020 1260 10 resW rfl⟩

/-- Claim C1 evaluated at the failing input: with `startDate` falling on day
6 (a Sunday) the scheduler assigns batch 1 to that very Sunday - the
rest-day skip of lines 460-463 and 476-479 runs only on day rollover, never
before scheduling the first batch, contradicting rest-day exclusion. -/
theorem C1_rest_day_not_skipped_on_start :
    (bulk_create_rounds lookupW 0 id noSaveErr ["a@x.com"] 1 6 1020 1260 10).result =
      .ok { totalUsersScheduled := 1, totalBatches := 1,
            batches := [{ batchNumber := 1, groupNumber := 1, users := ["a@x.com"],
                          gdTime := 1020, screeningTime := 1030,
                          interviewTime := 1040, date := 6 }],
            failed := [] } ∧
    6 % 7 = 6 :=
  ⟨rfl, rfl⟩

/-- Claim C5: in every batch of a returned summary,
`screeningTime = gdTime + roundDuration` and
`interviewTime = screeningTime + roundDuration` exactly, and every
persisted record carries the same relations on its three stamped
datetimes. (`endMinutes ≤ 1439` just says `endTime` is a valid time of
day.) -/
theorem C5_stage_ordering (lookup : String → Option User) (lastG : Nat)
    (shuffle : List User → List User) (saveErr : User → Option String)
    (emails : List String) (b sd sm em dur : Nat) (r : RunResult)
    (hEnd : em ≤ 1439)
    (hres : (bulk_create_rounds lookup lastG shuffle saveErr
      emails b sd sm em dur).result = .ok r) :
    (∀ bt ∈ r.batches, bt.screeningTime = bt.gdTime + dur ∧
      bt.interviewTime = bt.screeningTime + dur) ∧
    ∀ u ∈ (bulk_create_rounds lookup lastG shuffle saveErr
      emails b sd sm em dur).savedLog, wellStamped dur u := by
  rcases bulk_ok_cases lookup lastG shuffle saveErr emails b sd sm em dur r hres with
    ⟨-, hr, hlog⟩ | ⟨-, hcap, st', hsl, hr, hlog⟩
  · subst hr
    rw [hlog]
    exact ⟨by simp, by simp⟩
  · subst hr
    have hcapN : sm + 3 * dur ≤ em := by omega
    constructor
    · intro bt hbt
      have hb2 := schedLoop_batchOk saveErr sd sm em dur _ hcapN _ _ _
        (Or.inl rfl) (by simp [initState]) hsl bt hbt
      rcases hb2 with ⟨-, bsm, hle, hg, hs, hi⟩
      constructor <;> omega
    · rw [hlog]
      exact schedLoop_wellStamped saveErr sm em dur _ _ _ _ (by simp [initState]) hsl

/-- Witness for C5 at the base scenario (one batch of two candidates). -/
theorem C5_stage_ordering_witness :
    (1260 : Nat) ≤ 1439 ∧
    (bulk_create_rounds lookupW 0 id noSaveErr
        ["a@x.com", "b@x.com"] 2 0 1020 1260 10).result = .ok resW ∧
    ((∀ bt ∈ resW.batches, bt.screeningTime = bt.gdTime + 10 ∧
        bt.interviewTime = bt.screeningTime + 10) ∧
      ∀ u ∈ (bulk_create_rounds lookupW 0 id noSaveErr
        ["a@x.com", "b@x.com"] 2 0 1020 1260 10).savedLog, wellStamped 10 u) :=
  ⟨by decide, rfl,
    C5_stage_ordering lookupW 0 id noSaveErr ["a@x.com", "b@x.com"] 2 0 1020 1260 10 resW
      (by decide) rfl⟩

/-- Claim C6: when the day window admits a full three-stage cycle
(`endTime - startTime ≥ 3 * roundDuration`), every batch of a returned
summary satisfies `interviewTime ≤ endTime` and even
`gdTime + 3 * roundDuration ≤ endTime` - the whole three-stage window fits
before day end on the assigned date; a batch that would cross `endTime` is
instead restarted at `startTime` on the next eligible day (lines 473-483). -/
theorem C6_day_capacity (lookup : String → Option User) (lastG : Nat)
    (shuffle : List User → List User) (saveErr : User → Option String)
    (emails : List String) (b sd sm em dur : Nat) (r : RunResult)
    (hwin : 3 * (dur : Int) ≤ (em : Int) - (sm : Int))
    (hEnd : em ≤ 1439)
    (hres : (bulk_create_rounds lookup lastG shuffle saveErr
      emails b sd sm em dur).result = .ok r) :
    ∀ bt ∈ r.batches, bt.interviewTime ≤ em ∧ bt.gdTime + 3 * dur ≤ em := by
  rcases bulk_ok_cases lookup lastG shuffle saveErr emails b sd sm em dur r hres with
    ⟨-, hr, -⟩ | ⟨-, hcap, st', hsl, hr, -⟩
  · subst hr
    intro bt hbt
    exact absurd hbt (List.not_mem_nil bt)
  · subst hr
    intro bt hbt
    have hcapN : sm + 3 * dur ≤ em := by omega
    have hb2 := schedLoop_batchOk saveErr sd sm em dur _ hcapN _ _ _
      (Or.inl rfl) (by simp [initState]) hsl bt hbt
    rcases hb2 with ⟨-, bsm, hle, hg, hs, hi⟩
    constructor <;> omega

/-- Witness for C6 at the base scenario. -/
theorem C6_day_capacity_witness :
    (3 * (10 : Int) ≤ (1260 : Int) - (1020 : Int)) ∧ (1260 : Nat) ≤ 1439 ∧
    (bulk_create_rounds lookupW 0 id noSaveErr
        ["a@x.com", "b@x.com"] 2 0 1020 1260 10).result = .ok resW ∧
    ∀ bt ∈ resW.batches, bt.interviewTime ≤ 1260 ∧ bt.gdTime + 3 * 10 ≤ 1260 :=
  ⟨by decide, by decide, rfl,
    C6_day_capacity lookupW 0 id noSaveErr ["a@x.com", "b@x.com"] 2 0 1020 1260 10 resW
      (by decide) (by decide) rfl⟩

/-- Claim C7: the group numbers of the batches of a returned summary are
exactly `lastGroup + 1, lastGroup + 2, ...` in batch order - strictly
increasing by exactly 1, starting one above the maximum group number
queried once at run start (lines 417-419 and 530). -/
theorem C7_group_monotonicity (lookup : String → Option User) (lastG : Nat)
    (shuffle : List User → List User) (saveErr : User → Option String)
    (emails : List String) (b sd sm em dur : Nat) (r : RunResult)
    (hres : (bulk_create_rounds lookup lastG shuffle saveErr
      emails b sd sm em dur).result = .ok r) :
    r.batches.map (fun bt => bt.groupNumber) =
      List.range' (lastG + 1) r.batches.length := by
  rcases bulk_ok_cases lookup lastG shuffle saveErr emails b sd sm em dur r hres with
    ⟨-, hr, -⟩ | ⟨-, -, st', hsl, hr, -⟩
  · subst hr
    rfl
  · subst hr
    have hg := schedLoop_groups saveErr sm em dur _ _ _ _ hsl
    simp only [initState, List.map_nil, List.nil_append] at hg
    have hlen : st'.batches.length =
        (makeBatches b (shuffle (fetchUsers lookup emails).1)).length := by
      have h2 := congrArg List.length hg
      simpa using h2
    show st'.batches.map (fun bt => bt.groupNumber) =
      List.range' (lastG + 1) st'.batches.length
    rw [hlen]
    exact hg

/-- Witness for C7 at the pipelined scenario: two batches, groups 1 then 2. -/
theorem C7_group_monotonicity_witness :
    (bulk_create_rounds lookupW 0 id noSaveErr
        ["a@x.com", "b@x.com"] 1 0 1020 1260 10).result = .ok resW2 ∧
    resW2.batches.map (fun bt => bt.groupNumber) =
      List.range' (0 + 1) resW2.batches.length :=
  ⟨rfl,
    C7_group_monotonicity lookupW 0 id noSaveErr ["a@x.com", "b@x.com"] 1 0 1020 1260 10 resW2
      rfl⟩

/-- Counterexample to Claim C3's sizing clause: three requested emails of
which one does not resolve, batch size 2. Sizing over the requested emails
would give `ceil(3 / 2) = 2` batches; the run produces 1 batch, because the
partition of lines 437-439 runs over the found candidates only. -/
theorem C3_cx_batch_sizing_uses_found :
    (bulk_create_rounds lookupW 0 id noSaveErr
        ["a@x.com", "b@x.com", "c@x.com"] 2 0 1020 1260 10).result = .ok resW3 ∧
    resW3.totalBatches = 1 ∧
    (["a@x.com", "b@x.com", "c@x.com"].length + 2 - 1) / 2 = 2 :=
  ⟨rfl, rfl, by decide⟩

/-- Claim C3 (amended): a run with exactly one non-resolving email among `N`
resolving ones reports `N` scheduled and 1 failure; batch sizing is over the
found candidates, so `totalBatches = ceil(N / batchSize)` (not over the
requested emails). -/
theorem C3_missing_email_handling (lookup : String → Option User) (lastG : Nat)
    (shuffle : List User → List User) (saveErr : User → Option String)
    (emails : List String) (b sd sm em dur N : Nat) (r : RunResult)
    (hb : 0 < b)
    (hperm : ∀ l : List User, (shuffle l).Perm l)
    (hN : (emails.filter (fun e => (lookup e).isSome)).length = N)
    (h1 : (emails.filter (fun e => (lookup e).isNone)).length = 1)
    (hres : (bulk_create_rounds lookup lastG shuffle saveErr
      emails b sd sm em dur).result = .ok r) :
    r.totalUsersScheduled = N ∧ r.failed.length = 1 ∧
    r.totalBatches = (N + b - 1) / b := by
  rcases bulk_ok_cases lookup lastG shuffle saveErr emails b sd sm em dur r hres with
    ⟨h0, hr, -⟩ | ⟨-, -, st', -, hr, -⟩
  · subst hr
    have hflen : (fetchUsers lookup emails).1.length = 0 := by rw [h0]; rfl
    rw [fetchUsers_found_length] at hflen
    refine ⟨by show (0 : Nat) = N; omega, ?_, ?_⟩
    · show (fetchUsers lookup emails).2.length = 1
      rw [fetchUsers_failed, List.length_map]
      exact h1
    · show (0 : Nat) = (N + b - 1) / b
      have hN0 : N = 0 := by omega
      subst hN0
      symm
      apply Nat.div_eq_of_lt
      omega
  · subst hr
    refine ⟨?_, ?_, ?_⟩
    · show (shuffle (fetchUsers lookup emails).1).length = N
      rw [(hperm _).length_eq, fetchUsers_found_length, hN]
    · show (fetchUsers lookup emails).2.length = 1
      rw [fetchUsers_failed, List.length_map]
      exact h1
    · show (makeBatches b (shuffle (fetchUsers lookup emails).1)).length = (N + b - 1) / b
      rw [makeBatches_length b hb, (hperm _).length_eq, fetchUsers_found_length, hN]

/-- Witness for C3 (amended): `N = 2` resolving emails plus one missing,
batch size 2: 2 scheduled, 1 failure, `ceil(2 / 2) = 1` batch. -/
theorem C3_missing_email_handling_witness :
    0 < 2 ∧
    (["a@x.com", "b@x.com", "c@x.com"].filter (fun e => (lookupW e).isSome)).length = 2 ∧
    (["a@x.com", "b@x.com", "c@x.com"].filter (fun e => (lookupW e).isNone)).length = 1 ∧
    (bulk_create_rounds lookupW 0 id noSaveErr
        ["a@x.com", "b@x.com", "c@x.com"] 2 0 1020 1260 10).result = .ok resW3 ∧
    (resW3.totalUsersScheduled = 2 ∧ resW3.failed.length = 1 ∧
      resW3.totalBatches = (2 + 2 - 1) / 2) :=
  ⟨by decide, by decide, by decide, rfl,
    C3_missing_email_handling lookupW 0 id noSaveErr
      ["a@x.com", "b@x.com", "c@x.com"] 2 0 1020 1260 10 2 resW3
      (by decide) (fun l => List.Perm.refl l) (by decide) (by decide) rfl⟩

/-- Claim C10: an email that resolves and occurs `k` times in the request is
persisted `k` times - the write log contains `k` records with that email -
and `totalUsersScheduled` counts every resolving occurrence with
multiplicity, so it can exceed the number of distinct candidates. -/
theorem C10_duplicate_email_multiplicity (lookup : String → Option User) (lastG : Nat)
    (shuffle : List User → List User) (saveErr : User → Option String)
    (emails : List String) (b sd sm em dur : Nat) (e0 : String) (r : RunResult)
    (hb : 0 < b)
    (hkey : ∀ e u, lookup e = some u → u.email = e)
    (hperm : ∀ l : List User, (shuffle l).Perm l)
    (hsome : (lookup e0).isSome = true)
    (hres : (bulk_create_rounds lookup lastG shuffle saveErr
      emails b sd sm em dur).result = .ok r) :
    ((bulk_create_rounds lookup lastG shuffle saveErr
        emails b sd sm em dur).savedLog.map (fun u => u.email)).count e0 =
      emails.count e0 ∧
    r.totalUsersScheduled = (emails.filter (fun e => (lookup e).isSome)).length := by
  rcases bulk_ok_cases lookup lastG shuffle saveErr emails b sd sm em dur r hres with
    ⟨h0, hr, hlog⟩ | ⟨-, -, st', hsl, hr, hlog⟩
  · subst hr
    have hflen : (fetchUsers lookup emails).1.length = 0 := by rw [h0]; rfl
    rw [fetchUsers_found_length] at hflen
    have hfe : emails.filter (fun e => (lookup e).isSome) = [] :=
      List.length_eq_zero.mp hflen
    constructor
    · simp only [hlog, List.map_nil, List.count_nil]
      symm
      rw [List.count_eq_zero]
      intro hmem
      have hin : e0 ∈ emails.filter (fun e => (lookup e).isSome) :=
        List.mem_filter.mpr ⟨hmem, hsome⟩
      rw [hfe] at hin
      exact absurd hin (List.not_mem_nil e0)
    · show (0 : Nat) = (emails.filter (fun e => (lookup e).isSome)).length
      omega
  · subst hr
    have hA := schedLoop_savedEmails saveErr sm em dur _ _ _ _ hsl
    simp only [initState, List.map_nil, List.nil_append] at hA
    rw [makeBatches_flatten b hb] at hA
    constructor
    · rw [hlog, hA]
      have hpm : ((shuffle ((fetchUsers lookup emails).1)).map (fun u => u.email)).Perm
          (((fetchUsers lookup emails).1).map (fun u => u.email)) := (hperm _).map _
      rw [hpm.count_eq, fetchUsers_emails lookup hkey,
        @List.count_filter String _ _ (fun e => (lookup e).isSome) e0 emails hsome]
    · show (shuffle (fetchUsers lookup emails).1).length =
        (emails.filter (fun e => (lookup e).isSome)).length
      rw [(hperm _).length_eq, fetchUsers_found_length]

/-- Witness for C10: the same resolving email requested twice, batch size 2:
it is persisted twice and counted twice, exceeding the single distinct
candidate. -/
theorem C10_duplicate_email_multiplicity_witness :
    0 < 2 ∧
    (lookupW "a@x.com").isSome = true ∧
    (((bulk_create_rounds lookupW 0 id noSaveErr
          ["a@x.com", "a@x.com"] 2 0 1020 1260 10).savedLog.map
            (fun u => u.email)).count "a@x.com" =
        ["a@x.com", "a@x.com"].count "a@x.com" ∧
      resW10.totalUsersScheduled =
        (["a@x.com", "a@x.com"].filter (fun e => (lookupW e).isSome)).length) ∧
    ["a@x.com", "a@x.com"].count "a@x.com" = 2 ∧ resW10.totalUsersScheduled = 2 :=
  ⟨by decide, by decide,
    C10_duplicate_email_multiplicity lookupW 0 id noSaveErr
      ["a@x.com", "a@x.com"] 2 0 1020 1260 10 "a@x.com" resW10
      (by decide) lookupW_keyed (fun l => List.Perm.refl l) (by decide) rfl,
    by decide, by decide⟩

end RecBackend
